import Mathlib

/-!
Shallow embedding of the salish message router (src/src/router.rs, message.rs,
traits.rs, endpoint/handle.rs, endpoint/mod.rs, policy.rs).

Modelling conventions:
* Rust `TypeId` is modelled as `Nat`; a concrete payload value is a `Nat`
  tagged with its type id.  The source tag type `S` of the router is fixed to
  `Nat` (the router is monomorphic in `S`); downcasting a source succeeds by
  construction.
* `HashMap` is modelled as an association list with unique keys; insertion
  replaces an existing binding, `entry(..).or_default()` appends a fresh one at
  the end.  No claim depends on hash-iteration order.
* `usize` arithmetic wraps at `2^64` (the reference platform is 64-bit); the
  round-robin cursor update `wrapping_add(1)` is `(c + 1) % 2^64`.
* Rust panics (`panic!`, `%` by zero, index out of bounds, `rand` empty range)
  are modelled by `Fallible.panicked`; normal returns by `Fallible.returned`.
* Handler callbacks and filters are arbitrary Lean functions, mirroring the
  type-erased closures stored in `EndpointHandle`.
-/

namespace Salish

/-- Routing policy (src/src/policy.rs).  `roundRobin` is the Rust default. -/
inductive Policy where
  | roundRobin : Policy
  | random : Policy
deriving DecidableEq, Repr

/-- Message destination (src/src/message.rs, `Destination<Addr>` with `Addr = u64`). -/
inductive Destination where
  | any : Policy → Destination
  | broadcast : Policy → Destination
  | endpoint : Nat → Destination
deriving DecidableEq, Repr

/-- Erased payload container (src/src/traits.rs, `MessagePayload`):
a payload value tagged with its runtime `TypeId`, in either the unicast
(non-cloneable) or broadcast (cloneable) flavor. -/
inductive MessagePayload where
  | unicast : Nat → Nat → MessagePayload
  | broadcast : Nat → Nat → MessagePayload
deriving DecidableEq, Repr

/-- Runtime type identity of the payload (`SalishMessageInternal::payload_type`). -/
def MessagePayload.payload_type : MessagePayload → Nat
  | .unicast t _ => t
  | .broadcast t _ => t

/-- The concrete value stored in the erased payload container. -/
def MessagePayload.payloadVal : MessagePayload → Nat
  | .unicast _ v => v
  | .broadcast _ v => v

/-- Clone of a `MessagePayload` (src/src/traits.rs `impl Clone for MessagePayload`):
panics (`none`) on a unicast payload, duplicates a broadcast payload. -/
def MessagePayload.clonePayload : MessagePayload → Option MessagePayload
  | .unicast _ _ => none
  | .broadcast t v => some (.broadcast t v)

/-- Message envelope (src/src/message.rs, `Message`).  The source is the
already-downcast tag of the router's source type. -/
structure Message where
  source : Option Nat
  dest : Destination
  payload : MessagePayload
  is_clone : Bool
deriving DecidableEq, Repr

/-- Runtime type identity of the envelope's payload. -/
def Message.payload_type (m : Message) : Nat := m.payload.payload_type

/-- Clone of a `Message` (src/src/message.rs `impl Clone for Message`):
panics (`none`) when the payload is unicast; otherwise duplicates the payload,
keeps source and destination, and sets the `is_clone` flag. -/
def Message.clone (m : Message) : Option Message :=
  match m.payload.clonePayload with
  | none => none
  | some p => some { source := m.source, dest := m.dest, payload := p, is_clone := true }

/-- `Message::with_dest` builder. -/
def Message.with_dest (m : Message) (d : Destination) : Message := { m with dest := d }

/-- `Message::with_source` builder. -/
def Message.with_source (m : Message) (s : Nat) : Message := { m with source := some s }

/-- `Message::unicast` constructor: destination `Any` with the default policy. -/
def Message.mkUnicast (t v : Nat) : Message :=
  { source := none, dest := .any .roundRobin, payload := .unicast t v, is_clone := false }

/-- `Message::broadcast` constructor: destination `Broadcast` with the default policy. -/
def Message.mkBroadcast (t v : Nat) : Message :=
  { source := none, dest := .broadcast .roundRobin, payload := .broadcast t v, is_clone := false }

/-- Result of running a fragment of Rust code that may panic. -/
inductive Fallible (α : Type) where
  | panicked : Fallible α
  | returned : α → Fallible α
deriving DecidableEq, Repr

/-- Type-erased endpoint handle (src/src/endpoint/handle.rs, `EndpointHandle`):
an endpoint id plus the dispatch and filter closures. -/
structure Handle (R : Type) where
  endpoint_id : Nat
  callback : Option Nat → Message → Option R
  filter : Message → Bool

/-- Per-payload-type registry entry (src/src/router.rs, `TypeHandler`):
the registered handles in registration order plus the round-robin cursor. -/
structure TypeHandler (R : Type) where
  handlers : List (Handle R)
  next_index : Nat

/-- Router registry state (src/src/router.rs, `MessageRouter`): the identity
map `endpoints` and the type map `type_handlers`. -/
structure RouterState (R : Type) where
  endpoints : List (Nat × Handle R)
  type_handlers : List (Nat × TypeHandler R)

/-- `HashMap` lookup, modelled on an association list with unique keys. -/
def mapLookup {α : Type} (k : Nat) : List (Nat × α) → Option α
  | [] => none
  | e :: es => if e.1 = k then some e.2 else mapLookup k es

/-- `HashMap::insert`: replace an existing binding or append a fresh one. -/
def mapInsert {α : Type} (k : Nat) (v : α) : List (Nat × α) → List (Nat × α)
  | [] => [(k, v)]
  | e :: es => if e.1 = k then (k, v) :: es else e :: mapInsert k v es

/-- Replace the value bound to an existing key, leaving other entries alone. -/
def setTH {R : Type} (k : Nat) (th : TypeHandler R) :
    List (Nat × TypeHandler R) → List (Nat × TypeHandler R)
  | [] => []
  | e :: es => if e.1 = k then (k, th) :: es else e :: setTH k th es

/-- `entry(ty).or_default().handlers.push(h)`: push onto an existing entry's
handler list, or create a fresh entry with cursor 0. -/
def thInsert {R : Type} (ty : Nat) (h : Handle R) :
    List (Nat × TypeHandler R) → List (Nat × TypeHandler R)
  | [] => [(ty, ⟨[h], 0⟩)]
  | e :: es =>
    if e.1 = ty then (ty, ⟨e.2.handlers ++ [h], e.2.next_index⟩) :: es
    else e :: thInsert ty h es

/-- Wrap-around bound of `usize` on the 64-bit reference platform. -/
def usizeSize : Nat := 2 ^ 64

/-- `MessageRouter::dispatch_any` (src/src/router.rs lines 251-288).
Looks up the type handler; with a source present, first filter match wins in
registration order; otherwise the policy selects a handle (`RoundRobin`
advances the wrapping cursor, `Random` draws `rng` from `0..len`).  An empty
handler list would make the Rust code fault (`%` by zero / empty sample
range), modelled as `panicked`. -/
def dispatch_any {R : Type} (st : RouterState R) (msg : Message) (policy : Policy)
    (rng : Nat) : Fallible (Option (List R)) × RouterState R :=
  match mapLookup msg.payload_type st.type_handlers with
  | none => (.returned none, st)
  | some th =>
    match msg.source, th.handlers.find? (fun h => h.filter msg) with
    | some s, some h => (.returned ((h.callback (some s) msg).map (fun r => [r])), st)
    | _, _ =>
      match policy with
      | .roundRobin =>
        match th.handlers.get? (th.next_index % th.handlers.length) with
        | none => (.panicked, st)
        | some h =>
          (.returned ((h.callback msg.source msg).map (fun r => [r])),
           { st with
              type_handlers :=
                setTH msg.payload_type ⟨th.handlers, (th.next_index + 1) % usizeSize⟩
                  st.type_handlers })
      | .random =>
        match th.handlers.get? (rng % th.handlers.length) with
        | none => (.panicked, st)
        | some h => (.returned ((h.callback msg.source msg).map (fun r => [r])), st)

/-- `MessageRouter::call_handlers` (src/src/router.rs lines 154-249).
Zero handlers: none.  One handler: call it on the original envelope.  Two or
more: clone the envelope per handler (panicking on a unicast payload) and
collect the non-none results, yielding none when all declined. -/
def call_handlers {R : Type} (msg : Message) (handlers : List (Handle R)) :
    Fallible (Option (List R)) :=
  match handlers with
  | [] => .returned none
  | [h] => .returned ((h.callback msg.source msg).map (fun r => [r]))
  | _ :: _ :: _ =>
    match msg.clone with
    | none => .panicked
    | some dup =>
      let tasks := handlers.filterMap (fun h => h.callback msg.source dup)
      .returned (if tasks.isEmpty then none else some tasks)

/-- `MessageRouter::dispatch_broadcast` (src/src/router.rs lines 290-308).
No entry: none.  Exactly one handle: delegate to the `Any` path.  Otherwise
fan out through `call_handlers`. -/
def dispatch_broadcast {R : Type} (st : RouterState R) (msg : Message) (policy : Policy)
    (rng : Nat) : Fallible (Option (List R)) × RouterState R :=
  match mapLookup msg.payload_type st.type_handlers with
  | none => (.returned none, st)
  | some th =>
    if th.handlers.length = 1 then dispatch_any st msg policy rng
    else (call_handlers msg th.handlers, st)

/-- `MessageRouter::handle_message` (src/src/router.rs lines 312-336),
branching on the destination.  A direct `Endpoint(addr)` dispatch looks the
address up in the identity map and returns none when absent. -/
def handle_message {R : Type} (st : RouterState R) (msg : Message) (rng : Nat) :
    Fallible (Option (List R)) × RouterState R :=
  match msg.dest with
  | .any p => dispatch_any st msg p rng
  | .broadcast p => dispatch_broadcast st msg p rng
  | .endpoint addr =>
    match mapLookup addr st.endpoints with
    | some h => (.returned ((h.callback msg.source msg).map (fun r => [r])), st)
    | none => (.returned none, st)

/-- Fresh router (src/src/router.rs `MessageRouter::new`): both maps empty. -/
def emptyRouter {R : Type} : RouterState R := { endpoints := [], type_handlers := [] }

/-- `MessageRouter::add_endpoint` (src/src/router.rs lines 361-385): insert the
handle into the identity map and push it onto the payload type's handler list. -/
def add_endpoint {R : Type} (st : RouterState R) (ty : Nat) (h : Handle R) :
    RouterState R :=
  { endpoints := mapInsert h.endpoint_id h st.endpoints,
    type_handlers := thInsert ty h st.type_handlers }

/-- `MessageRouter::remove_endpoint` (src/src/router.rs lines 340-352): remove
the id from the identity map, purge it from every type-handler list, and drop
any entry whose list became empty. -/
def remove_endpoint {R : Type} (st : RouterState R) (id : Nat) : RouterState R :=
  { endpoints := st.endpoints.filter (fun e => e.1 ≠ id),
    type_handlers :=
      (st.type_handlers.map
        (fun e => (e.1, ⟨e.2.handlers.filter (fun h => h.endpoint_id ≠ id),
                         e.2.next_index⟩))).filter
        (fun e => ¬ e.2.handlers.isEmpty) }

/-- `MessageRouter::num_endpoints`. -/
def num_endpoints {R : Type} (st : RouterState R) : Nat := st.endpoints.length

/-- `MessageRouter::num_handlers`: sum of the type map's handler-list lengths. -/
def num_handlers {R : Type} (st : RouterState R) : Nat :=
  (st.type_handlers.map (fun e => e.2.handlers.length)).sum

/-- `Message::into_inner::<M>` as used by the dispatch closure
(src/src/traits.rs lines 35-57): downcast of the owned payload; a failed
downcast panics. -/
def Message.into_inner (m : Message) (ty : Nat) : Fallible Nat :=
  if m.payload.payload_type = ty then .returned m.payload.payloadVal else .panicked

/-- Dispatch closure built by `EndpointHandle::new` (src/src/endpoint/handle.rs
lines 68-86) for an endpoint of payload type `M` whose inner handler is
`onMessage`: reject (none) when the envelope's runtime payload type differs
from `M`, otherwise downcast and invoke the handler.  The `panicked` arm of
the downcast is unreachable: it is guarded by the type check. -/
def mkDispatch {R : Type} (M : Nat) (onMessage : Option Nat → Nat → R) :
    Option Nat → Message → Option R :=
  fun source message =>
    if message.payload_type ≠ M then none
    else
      match message.into_inner M with
      | .returned v => some (onMessage source v)
      | .panicked => none

/-! Helper lemmas about the association-list map operations. -/

theorem mapLookup_setTH_self {R : Type} (k : Nat) (th th0 : TypeHandler R)
    (l : List (Nat × TypeHandler R)) (h : mapLookup k l = some th0) :
    mapLookup k (setTH k th l) = some th := by
  induction l with
  | nil => simp [mapLookup] at h
  | cons e es ih =>
    by_cases he : e.1 = k
    · simp [setTH, mapLookup, he]
    · simp [setTH, mapLookup, he] at h ⊢
      exact ih h

theorem mapLookup_setTH_ne {R : Type} (k k' : Nat) (th : TypeHandler R)
    (l : List (Nat × TypeHandler R)) (h : k' ≠ k) :
    mapLookup k' (setTH k th l) = mapLookup k' l := by
  induction l with
  | nil => simp [setTH]
  | cons e es ih =>
    by_cases he : e.1 = k
    · subst he
      simp [setTH, mapLookup, Ne.symm h]
    · simp [setTH, mapLookup, he]
      by_cases he' : e.1 = k'
      · simp [he']
      · simp [he', ih]

theorem mapLookup_mem {α : Type} (k : Nat) (v : α) (l : List (Nat × α))
    (h : mapLookup k l = some v) : (k, v) ∈ l := by
  induction l with
  | nil => simp [mapLookup] at h
  | cons e es ih =>
    by_cases he : e.1 = k
    · simp [mapLookup, he] at h
      cases e
      simp_all
    · simp [mapLookup, he] at h
      exact List.mem_cons_of_mem _ (ih h)

/-- C4: absent recipient is soft.  With no type-handler entry for the
message's payload type, both `Any`- and `Broadcast`-destined dispatch return
none without faulting and leave the state unchanged; a `Destination::Endpoint`
dispatch to an address absent from the identity map likewise returns none.
The statement is generic in the payload, so it covers unicast- and
broadcast-flavored envelopes alike. -/
theorem claim_C4_absent_recipient_soft {R : Type} (st : RouterState R) (msg : Message)
    (rng : Nat) :
    (((∃ p, msg.dest = .any p) ∨ (∃ p, msg.dest = .broadcast p)) →
      mapLookup msg.payload_type st.type_handlers = none →
      handle_message st msg rng = (.returned none, st)) ∧
    (∀ addr, msg.dest = .endpoint addr →
      mapLookup addr st.endpoints = none →
      handle_message st msg rng = (.returned none, st)) := by
  constructor
  · rintro (⟨p, hd⟩ | ⟨p, hd⟩) hl <;>
      simp [handle_message, hd, dispatch_any, dispatch_broadcast, hl]
  · intro addr hd hl
    simp [handle_message, hd, hl]

/-- Witness for C4 at concrete inputs: an empty router returns none for a
unicast `Any` envelope, a broadcast `Broadcast` envelope, and an
`Endpoint(42)`-addressed envelope of either flavor. -/
theorem claim_C4_witness :
    handle_message (R := Nat) emptyRouter (Message.mkUnicast 7 3) 0 =
      (.returned none, emptyRouter) ∧
    handle_message (R := Nat) emptyRouter (Message.mkBroadcast 7 3) 0 =
      (.returned none, emptyRouter) ∧
    handle_message (R := Nat) emptyRouter ((Message.mkUnicast 7 3).with_dest (.endpoint 42)) 0 =
      (.returned none, emptyRouter) ∧
    handle_message (R := Nat) emptyRouter ((Message.mkBroadcast 7 3).with_dest (.endpoint 42)) 0 =
      (.returned none, emptyRouter) := by
  refine ⟨?_, ?_, ?_, ?_⟩
  · exact (claim_C4_absent_recipient_soft emptyRouter (Message.mkUnicast 7 3) 0).1
      (Or.inl ⟨_, rfl⟩) rfl
  · exact (claim_C4_absent_recipient_soft emptyRouter (Message.mkBroadcast 7 3) 0).1
      (Or.inr ⟨_, rfl⟩) rfl
  · exact (claim_C4_absent_recipient_soft emptyRouter
      ((Message.mkUnicast 7 3).with_dest (.endpoint 42)) 0).2 42 rfl rfl
  · exact (claim_C4_absent_recipient_soft emptyRouter
      ((Message.mkBroadcast 7 3).with_dest (.endpoint 42)) 0).2 42 rfl rfl

/-- C5: payload type isolation.  The type-erased dispatch closure built for an
endpoint of payload type `M` returns none on every envelope whose runtime
payload type differs from `M`; the result is independent of the registered
callback (so the callback is never reached); and a message of a different
payload type addressed directly to that endpoint's id through
`Destination::Endpoint` yields none from `handle_message`. -/
theorem claim_C5_payload_type_isolation {R : Type} (M : Nat)
    (f : Option Nat → Nat → R) (src : Option Nat) (msg : Message)
    (h : msg.payload_type ≠ M) :
    mkDispatch M f src msg = none ∧
    (∀ g : Option Nat → Nat → R, mkDispatch M g src msg = mkDispatch M f src msg) ∧
    (∀ (st : RouterState R) (id rng : Nat) (flt : Message → Bool),
      mapLookup id st.endpoints = some ⟨id, mkDispatch M f, flt⟩ →
      msg.dest = .endpoint id →
      handle_message st msg rng = (.returned none, st)) := by
  refine ⟨by simp [mkDispatch, h], fun g => by simp [mkDispatch, h], ?_⟩
  intro st id rng flt hl hd
  simp [handle_message, hd, hl, mkDispatch, h]

/-- Witness for C5: an endpoint for type 1 with callback returning the payload
value, confronted with an envelope of payload type 2 addressed straight to it. -/
theorem claim_C5_witness :
    mkDispatch (R := Nat) 1 (fun _ v => v) none
      ((Message.mkUnicast 2 9).with_dest (.endpoint 0)) = none ∧
    handle_message
      (R := Nat)
      { endpoints := [(0, ⟨0, mkDispatch 1 (fun _ v => v), fun _ => false⟩)],
        type_handlers := [] }
      ((Message.mkUnicast 2 9).with_dest (.endpoint 0)) 0 =
      (.returned none,
       { endpoints := [(0, ⟨0, mkDispatch 1 (fun _ v => v), fun _ => false⟩)],
         type_handlers := [] }) := by
  have h := claim_C5_payload_type_isolation (R := Nat) 1 (fun _ v => v) none
    ((Message.mkUnicast 2 9).with_dest (.endpoint 0)) (by decide)
  exact ⟨h.1, h.2.2 _ 0 0 (fun _ => false) rfl rfl⟩

/-- C6: unicast envelopes cannot be duplicated.  Cloning a message with a
unicast payload panics (`none`, the `UnclonablePayload` condition); cloning a
message with a broadcast-capable payload succeeds with the same source and
destination, a duplicated payload, and the duplicate flag set. -/
theorem claim_C6_unicast_unclonable (m : Message) :
    (∀ t v, m.payload = .unicast t v → m.clone = none) ∧
    (∀ t v, m.payload = .broadcast t v →
      m.clone = some { source := m.source, dest := m.dest,
                       payload := .broadcast t v, is_clone := true }) := by
  constructor
  · intro t v hp
    simp [Message.clone, hp, MessagePayload.clonePayload]
  · intro t v hp
    simp [Message.clone, hp, MessagePayload.clonePayload]

/-- Witness for C6: a concrete unicast envelope fails to clone; a concrete
broadcast envelope (with a source, an endpoint destination, and a cleared
duplicate flag) clones to the expected duplicate. -/
theorem claim_C6_witness :
    (Message.mkUnicast 5 11).clone = none ∧
    (((Message.mkBroadcast 5 11).with_source 3).with_dest (.endpoint 8)).clone =
      some { source := some 3, dest := .endpoint 8,
             payload := .broadcast 5 11, is_clone := true } := by
  constructor
  · exact (claim_C6_unicast_unclonable (Message.mkUnicast 5 11)).1 5 11 rfl
  · exact (claim_C6_unicast_unclonable
      (((Message.mkBroadcast 5 11).with_source 3).with_dest (.endpoint 8))).2 5 11 rfl

theorem get?_mod_isSome {α : Type} (l : List α) (n : Nat) (h : l ≠ []) :
    ∃ x, l.get? (n % l.length) = some x := by
  have hlen : 0 < l.length := List.length_pos.mpr h
  have hm : n % l.length < l.length := Nat.mod_lt _ hlen
  exact ⟨l.get ⟨_, hm⟩, List.get?_eq_get hm⟩

/-- C3: filter precedence on sourced `Any` dispatch.  With a source present
and at least one registered filter matching, the first matching handle in
registration order receives the message, the result is that handler's value
wrapped in a one-element list, and the state — in particular the round-robin
cursor — is untouched for every policy.  Only when no filter matches does
selection fall back to the policy branch (`RoundRobin` advancing the cursor,
`Random` drawing from the registered handles). -/
theorem claim_C3_filter_precedence {R : Type} (st : RouterState R) (msg : Message)
    (p : Policy) (rng s : Nat) (th : TypeHandler R)
    (hd : msg.dest = .any p)
    (hs : msg.source = some s)
    (hl : mapLookup msg.payload_type st.type_handlers = some th) :
    (∀ h : Handle R, th.handlers.find? (fun h => h.filter msg) = some h →
      handle_message st msg rng =
        (.returned ((h.callback (some s) msg).map (fun r => [r])), st)) ∧
    (th.handlers.find? (fun h => h.filter msg) = none → p = .roundRobin →
      th.handlers ≠ [] →
      handle_message st msg rng =
        (.returned (((th.handlers.get? (th.next_index % th.handlers.length)).bind
            (fun h => h.callback (some s) msg)).map (fun r => [r])),
         { st with
            type_handlers :=
              setTH msg.payload_type ⟨th.handlers, (th.next_index + 1) % usizeSize⟩
                st.type_handlers })) ∧
    (th.handlers.find? (fun h => h.filter msg) = none → p = .random →
      th.handlers ≠ [] →
      handle_message st msg rng =
        (.returned (((th.handlers.get? (rng % th.handlers.length)).bind
            (fun h => h.callback (some s) msg)).map (fun r => [r])), st)) := by
  refine ⟨?_, ?_, ?_⟩
  · intro h hfind
    simp [handle_message, hd, dispatch_any, hl, hs, hfind]
  · intro hfind hp hne
    obtain ⟨x, hx⟩ := get?_mod_isSome th.handlers th.next_index hne
    rw [List.get?_eq_getElem?] at hx
    simp [handle_message, hd, dispatch_any, hl, hs, hfind, hp, hx]
  · intro hfind hp hne
    obtain ⟨x, hx⟩ := get?_mod_isSome th.handlers rng hne
    rw [List.get?_eq_getElem?] at hx
    simp [handle_message, hd, dispatch_any, hl, hs, hfind, hp, hx]

/-- Witness for C3: two handlers for type 0; the second one's filter matches
source 5 while the first does not, so the sourced `Any` dispatch delivers to
the second handler without touching the cursor; with a non-matching source 9
no filter matches and round-robin selects the first handler, advancing the
cursor. -/
theorem claim_C3_witness :
    handle_message
      (R := Nat)
      { endpoints := [],
        type_handlers :=
          [(0, ⟨[⟨10, fun _ _ => some 100, fun _ => false⟩,
                 ⟨11, fun _ _ => some 200, fun m => m.source == some 5⟩], 0⟩)] }
      ((Message.mkUnicast 0 1).with_source 5) 0 =
      (.returned (some [200]),
       { endpoints := [],
         type_handlers :=
           [(0, ⟨[⟨10, fun _ _ => some 100, fun _ => false⟩,
                  ⟨11, fun _ _ => some 200, fun m => m.source == some 5⟩], 0⟩)] }) ∧
    (handle_message
      (R := Nat)
      { endpoints := [],
        type_handlers :=
          [(0, ⟨[⟨10, fun _ _ => some 100, fun _ => false⟩,
                 ⟨11, fun _ _ => some 200, fun m => m.source == some 5⟩], 0⟩)] }
      ((Message.mkUnicast 0 1).with_source 9) 0).1 =
      .returned (some [100]) := by
  constructor
  · exact (claim_C3_filter_precedence
      (R := Nat)
      { endpoints := [],
        type_handlers :=
          [(0, ⟨[⟨10, fun _ _ => some 100, fun _ => false⟩,
                 ⟨11, fun _ _ => some 200, fun m => m.source == some 5⟩], 0⟩)] }
      ((Message.mkUnicast 0 1).with_source 5)
      .roundRobin 0 5
      ⟨[⟨10, fun _ _ => some 100, fun _ => false⟩,
        ⟨11, fun _ _ => some 200, fun m => m.source == some 5⟩], 0⟩
      rfl rfl rfl).1
      ⟨11, fun _ _ => some 200, fun m => m.source == some 5⟩ rfl
  · have h := (claim_C3_filter_precedence
      (R := Nat)
      { endpoints := [],
        type_handlers :=
          [(0, ⟨[⟨10, fun _ _ => some 100, fun _ => false⟩,
                 ⟨11, fun _ _ => some 200, fun m => m.source == some 5⟩], 0⟩)] }
      ((Message.mkUnicast 0 1).with_source 9)
      .roundRobin 0 9
      ⟨[⟨10, fun _ _ => some 100, fun _ => false⟩,
        ⟨11, fun _ _ => some 200, fun m => m.source == some 5⟩], 0⟩
      rfl rfl rfl).2.1 rfl rfl (by simp)
    rw [h]
    rfl

theorem filterMap_length_of_isSome {α β : Type} (f : α → Option β) (l : List α)
    (h : ∀ x ∈ l, (f x).isSome) : (l.filterMap f).length = l.length := by
  induction l with
  | nil => simp
  | cons a l ih =>
    have ha := h a (List.mem_cons_self a l)
    obtain ⟨b, hb⟩ := Option.isSome_iff_exists.mp ha
    simp [List.filterMap_cons, hb, ih (fun x hx => h x (List.mem_cons_of_mem _ hx))]

/-- C2 (amended to broadcast-capable payloads): broadcast fan-out.  For a
`Broadcast`-destined envelope carrying a broadcast-capable payload whose type
has `M ≥ 2` registered handles, `handle_message` hands every handle the
duplicated envelope (duplicate flag set), returns all non-none handler results
as a list — of length exactly `M` when every handler answers — and returns
none when every handler declines.  The state is unchanged. -/
theorem claim_C2_broadcast_fanout {R : Type} (st : RouterState R) (msg : Message)
    (p : Policy) (rng : Nat) (th : TypeHandler R) (T v M : Nat)
    (hd : msg.dest = .broadcast p)
    (hp : msg.payload = .broadcast T v)
    (hl : mapLookup msg.payload_type st.type_handlers = some th)
    (hM : th.handlers.length = M)
    (h2 : 2 ≤ M) :
    ∀ dup : Message,
      dup = { source := msg.source, dest := msg.dest,
              payload := .broadcast T v, is_clone := true } →
      msg.clone = some dup ∧
      (handle_message st msg rng =
        (.returned
          (if (th.handlers.filterMap (fun h => h.callback msg.source dup)).isEmpty
           then none
           else some (th.handlers.filterMap (fun h => h.callback msg.source dup))), st)) ∧
      ((∀ h ∈ th.handlers, (h.callback msg.source dup).isSome) →
        (th.handlers.filterMap (fun h => h.callback msg.source dup)).length = M) ∧
      ((∀ h ∈ th.handlers, h.callback msg.source dup = none) →
        handle_message st msg rng = (.returned none, st)) := by
  intro dup hdup
  have hclone : msg.clone = some dup := by
    simp [Message.clone, hp, MessagePayload.clonePayload, hdup]
  have hne1 : th.handlers.length ≠ 1 := by omega
  have hcall : ∀ l : List (Handle R), l = th.handlers →
      call_handlers msg l =
        .returned
          (if (th.handlers.filterMap (fun h => h.callback msg.source dup)).isEmpty
           then none
           else some (th.handlers.filterMap (fun h => h.callback msg.source dup))) := by
    intro l hle
    match l, hle with
    | [], hle => rw [← hle] at hM; simp at hM; omega
    | [h], hle => rw [← hle] at hM; simp at hM; omega
    | a :: b :: rest, hle =>
      simp only [call_handlers, hclone, hle]
  have hmain := hcall th.handlers rfl
  refine ⟨hclone, ?_, ?_, ?_⟩
  · simp [handle_message, hd, dispatch_broadcast, hl, hne1, hmain]
  · intro hall
    rw [filterMap_length_of_isSome _ _ hall, hM]
  · intro hnone
    have hempty : th.handlers.filterMap (fun h => h.callback msg.source dup) = [] :=
      List.filterMap_eq_nil_iff.mpr hnone
    simp [handle_message, hd, dispatch_broadcast, hl, hne1, hmain, hempty]

/-- Witness for C2: three handlers for type 0 answering 1, 2 and 3; a
sourceless broadcast envelope fans out to all three and yields the
three-element result list, leaving the state unchanged. -/
theorem claim_C2_witness :
    (Message.mkBroadcast 0 7).clone =
      some { source := none, dest := .broadcast .roundRobin,
             payload := .broadcast 0 7, is_clone := true } ∧
    handle_message
      (R := Nat)
      { endpoints := [],
        type_handlers :=
          [(0, ⟨[⟨1, fun _ _ => some 1, fun _ => false⟩,
                 ⟨2, fun _ _ => some 2, fun _ => false⟩,
                 ⟨3, fun _ _ => some 3, fun _ => false⟩], 0⟩)] }
      (Message.mkBroadcast 0 7) 0 =
      (.returned (some [1, 2, 3]),
       { endpoints := [],
         type_handlers :=
           [(0, ⟨[⟨1, fun _ _ => some 1, fun _ => false⟩,
                  ⟨2, fun _ _ => some 2, fun _ => false⟩,
                  ⟨3, fun _ _ => some 3, fun _ => false⟩], 0⟩)] }) := by
  have h := claim_C2_broadcast_fanout
    (R := Nat)
    { endpoints := [],
      type_handlers :=
        [(0, ⟨[⟨1, fun _ _ => some 1, fun _ => false⟩,
               ⟨2, fun _ _ => some 2, fun _ => false⟩,
               ⟨3, fun _ _ => some 3, fun _ => false⟩], 0⟩)] }
    (Message.mkBroadcast 0 7) .roundRobin 0 _ 0 7 3 rfl rfl rfl rfl (by omega)
    { source := none, dest := .broadcast .roundRobin,
      payload := .broadcast 0 7, is_clone := true } rfl
  exact ⟨h.1, h.2.1⟩

/-- Counterexample for C2 as frozen: a `Broadcast`-destined envelope whose
payload is unicast, with two handlers registered for its type, makes
`handle_message` panic at the per-handler envelope clone
(src/src/router.rs line 181 calling the panicking `Clone` impl of
src/src/message.rs lines 52-66) instead of returning the list of handler
results — here both handlers would have answered, so the claim predicts
`returned (some [1, 2])`. -/
theorem claim_C2_counterexample :
    (handle_message
      (R := Nat)
      { endpoints := [],
        type_handlers :=
          [(0, ⟨[⟨1, fun _ _ => some 1, fun _ => false⟩,
                 ⟨2, fun _ _ => some 2, fun _ => false⟩], 0⟩)] }
      ((Message.mkUnicast 0 7).with_dest (.broadcast .roundRobin)) 0).1 =
      .panicked := by
  rfl

/-- C8: broadcast collapse to `Any`.  With exactly one handle registered for
the payload type, a `Broadcast`-destined dispatch is the `Any`-path dispatch
of the same envelope: same result, same state effects (filter check and
round-robin cursor advance included), and no envelope duplication — in
particular it never panics, even for an unclonable unicast payload.  When the
single handle's callback and filter ignore the destination field (true of
every handle built by `EndpointHandle::new`, whose closures see only the
source and the downcast payload, with the provided `SourceFilter` reading
only the source), the outcome coincides with dispatching the same message
re-addressed to `Destination::Any` under the same policy. -/
theorem claim_C8_broadcast_collapse {R : Type} (st : RouterState R) (msg : Message)
    (p : Policy) (rng : Nat) (th : TypeHandler R) (h : Handle R)
    (hd : msg.dest = .broadcast p)
    (hl : mapLookup msg.payload_type st.type_handlers = some th)
    (h1 : th.handlers = [h]) :
    handle_message st msg rng = dispatch_any st msg p rng ∧
    (handle_message st msg rng).1 ≠ .panicked ∧
    ((∀ (src : Option Nat) (m : Message) (d : Destination),
        h.callback src (m.with_dest d) = h.callback src m) →
      (∀ (m : Message) (d : Destination), h.filter (m.with_dest d) = h.filter m) →
      handle_message st msg rng = handle_message st (msg.with_dest (.any p)) rng) := by
  obtain ⟨msrc, mdest, mpl, mic⟩ := msg
  simp only [Message.dest] at hd
  subst hd
  have hl' : mapLookup mpl.payload_type st.type_handlers = some th := hl
  have e1 : handle_message st ⟨msrc, .broadcast p, mpl, mic⟩ rng =
      dispatch_any st ⟨msrc, .broadcast p, mpl, mic⟩ p rng := by
    simp [handle_message, dispatch_broadcast, Message.payload_type, hl', h1]
  have e2 : (dispatch_any st ⟨msrc, .broadcast p, mpl, mic⟩ p rng).1 ≠ Fallible.panicked := by
    cases msrc with
    | none =>
      cases p <;>
        simp [dispatch_any, hl', h1, Message.payload_type, Nat.mod_one]
    | some s =>
      cases hf : h.filter ⟨some s, .broadcast p, mpl, mic⟩ <;> cases p <;>
        simp_all [dispatch_any, hl', h1, Message.payload_type, Nat.mod_one]
  refine ⟨e1, by rw [e1]; exact e2, ?_⟩
  intro hcb hfl
  have hfe := hfl ⟨msrc, .broadcast p, mpl, mic⟩ (.any p)
  have hce := fun src => hcb src ⟨msrc, .broadcast p, mpl, mic⟩ (.any p)
  simp only [Message.with_dest] at hfe hce
  have e3 : handle_message st
      ((⟨msrc, .broadcast p, mpl, mic⟩ : Message).with_dest (.any p)) rng =
      dispatch_any st ⟨msrc, .any p, mpl, mic⟩ p rng := by
    simp [handle_message, Message.with_dest]
  rw [e1, e3]
  cases msrc with
  | none =>
    cases p <;>
      simp [dispatch_any, hl', h1, Message.payload_type, Nat.mod_one, hfe, hce]
  | some s =>
    cases hf : h.filter ⟨some s, .broadcast p, mpl, mic⟩ <;> cases p <;>
      simp_all [dispatch_any, hl', h1, Message.payload_type, Nat.mod_one]

/-- Witness for C8: a single handler for type 0 with a cursor already at 5; a
broadcast envelope neither panics nor differs from the `Any` dispatch of the
re-addressed envelope. -/
theorem claim_C8_witness :
    (handle_message (R := Nat)
      { endpoints := [],
        type_handlers := [(0, ⟨[⟨1, fun _ _ => some 42, fun _ => false⟩], 5⟩)] }
      (Message.mkBroadcast 0 3) 0).1 ≠ .panicked ∧
    handle_message (R := Nat)
      { endpoints := [],
        type_handlers := [(0, ⟨[⟨1, fun _ _ => some 42, fun _ => false⟩], 5⟩)] }
      (Message.mkBroadcast 0 3) 0 =
    handle_message (R := Nat)
      { endpoints := [],
        type_handlers := [(0, ⟨[⟨1, fun _ _ => some 42, fun _ => false⟩], 5⟩)] }
      ((Message.mkBroadcast 0 3).with_dest (.any .roundRobin)) 0 := by
  have h := claim_C8_broadcast_collapse
    (R := Nat)
    { endpoints := [],
      type_handlers := [(0, ⟨[⟨1, fun _ _ => some 42, fun _ => false⟩], 5⟩)] }
    (Message.mkBroadcast 0 3) .roundRobin 0
    ⟨[⟨1, fun _ _ => some 42, fun _ => false⟩], 5⟩
    ⟨1, fun _ _ => some 42, fun _ => false⟩
    rfl rfl rfl
  exact ⟨h.2.1, h.2.2 (fun _ _ _ => rfl) (fun _ _ => rfl)⟩

/-- Iterated dispatch: feed a list of messages through `handle_message` one
after another, threading the router state and collecting every call's
outcome.  The rng oracle is fixed to 0 (it is unused by sourceless
round-robin dispatch). -/
def runCalls {R : Type} (st : RouterState R) :
    List Message → List (Fallible (Option (List R))) × RouterState R
  | [] => ([], st)
  | m :: ms =>
    let step := handle_message st m 0
    let rest := runCalls step.2 ms
    (step.1 :: rest.1, rest.2)

/-- Expected outcomes of consecutive sourceless round-robin dispatches over a
fixed handler list `hs`, starting at cursor `c`: the k-th call selects the
handle at index `(c + k) % hs.length`. -/
def rrOutcomes {R : Type} (hs : List (Handle R)) :
    Nat → List Message → List (Fallible (Option (List R)))
  | _, [] => []
  | c, m :: ms =>
    .returned (((hs.get? (c % hs.length)).bind (fun h => h.callback none m)).map
        (fun r => [r])) ::
      rrOutcomes hs (c + 1) ms

theorem handle_message_rr_step {R : Type} (st : RouterState R) (m : Message) (T : Nat)
    (th : TypeHandler R)
    (hl : mapLookup T st.type_handlers = some th)
    (hpt : m.payload_type = T) (hdest : m.dest = .any .roundRobin)
    (hsrc : m.source = none) (hne : th.handlers ≠ []) :
    handle_message st m 0 =
      (.returned (((th.handlers.get? (th.next_index % th.handlers.length)).bind
          (fun h => h.callback none m)).map (fun r => [r])),
       { st with
          type_handlers :=
            setTH T ⟨th.handlers, (th.next_index + 1) % usizeSize⟩ st.type_handlers }) := by
  obtain ⟨x, hx⟩ := get?_mod_isSome th.handlers th.next_index hne
  rw [List.get?_eq_getElem?] at hx
  simp [handle_message, hdest, dispatch_any, hpt, hl, hsrc, hx, List.get?_eq_getElem?]

theorem runCalls_rr {R : Type} (T : Nat) (msgs : List Message) :
    ∀ (st : RouterState R) (hs : List (Handle R)) (c : Nat),
    mapLookup T st.type_handlers = some ⟨hs, c⟩ →
    hs ≠ [] →
    c + msgs.length ≤ usizeSize →
    (∀ m ∈ msgs, m.payload_type = T ∧ m.dest = .any .roundRobin ∧ m.source = none) →
    (runCalls st msgs).1 = rrOutcomes hs c msgs := by
  induction msgs with
  | nil => intro st hs c _ _ _ _; simp [runCalls, rrOutcomes]
  | cons m ms ih =>
    intro st hs c hl hne hbound hok
    have hm := hok m (List.mem_cons_self m ms)
    have hstep := handle_message_rr_step st m T ⟨hs, c⟩ hl hm.1 hm.2.1 hm.2.2 hne
    cases ms with
    | nil => simp [runCalls, rrOutcomes, hstep]
    | cons m2 ms2 =>
      have hc1 : (c + 1) % usizeSize = c + 1 := by
        apply Nat.mod_eq_of_lt
        simp only [List.length_cons] at hbound
        omega
      have hl' : mapLookup T
          (setTH T ⟨hs, (c + 1) % usizeSize⟩ st.type_handlers) = some ⟨hs, c + 1⟩ := by
        rw [hc1]
        exact mapLookup_setTH_self T _ _ _ hl
      have hbound' : (c + 1) + (m2 :: ms2).length ≤ usizeSize := by
        simp only [List.length_cons] at hbound ⊢
        omega
      have hrec := ih ({ st with
          type_handlers := setTH T ⟨hs, (c + 1) % usizeSize⟩ st.type_handlers })
        hs (c + 1) hl' hne hbound'
        (fun x hx => hok x (List.mem_cons_of_mem _ hx))
      have hstep2 : handle_message st m 0 =
          (.returned (((hs.get? (c % hs.length)).bind
              (fun h => h.callback none m)).map (fun r => [r])),
           { st with
              type_handlers := setTH T ⟨hs, (c + 1) % usizeSize⟩ st.type_handlers }) := hstep
      have hunfold : (runCalls st (m :: m2 :: ms2)).1 =
          (handle_message st m 0).1 ::
            (runCalls (handle_message st m 0).2 (m2 :: ms2)).1 := rfl
      rw [hunfold, hstep2]
      simp only [rrOutcomes]
      rw [hrec]
      rfl

theorem rrOutcomes_get? {R : Type} (hs : List (Handle R)) (msgs : List Message) :
    ∀ (c k : Nat), k < msgs.length →
    (rrOutcomes hs c msgs).get? k =
      (msgs.get? k).map (fun m =>
        .returned (((hs.get? ((c + k) % hs.length)).bind
          (fun h => h.callback none m)).map (fun r => [r]))) := by
  induction msgs with
  | nil => intro c k hk; simp at hk
  | cons m ms ih =>
    intro c k hk
    cases k with
    | zero => simp [rrOutcomes]
    | succ k =>
      have hk' : k < ms.length := by simpa using hk
      have := ih (c + 1) k hk'
      have harith : c + 1 + k = c + (k + 1) := by omega
      rw [harith] at this
      simpa [rrOutcomes] using this

/-- C1 (amended with the proviso that the `usize` round-robin cursor does not
wrap around `2^64` inside the window, i.e. cursor + N ≤ 2^64 — which holds in
any run of fewer than 2^64 dispatches): round-robin fairness.  With `N ≥ 1`
handles registered for a payload type and cursor `c`, `N` consecutive
sourceless `Any(RoundRobin)` dispatches of that type select the handles at
indices `(c + k) % N` for `k = 0 .. N-1` — registration order, cyclically,
starting from the current cursor — and that index map is injective on the
window, so each handle is invoked exactly once before any repeats. -/
theorem claim_C1_round_robin_fairness {R : Type} (st : RouterState R) (T N c : Nat)
    (hs : List (Handle R)) (msgs : List Message)
    (hl : mapLookup T st.type_handlers = some ⟨hs, c⟩)
    (hN : hs.length = N) (hpos : 1 ≤ N) (hlen : msgs.length = N)
    (hwrap : c + N ≤ usizeSize)
    (hok : ∀ m ∈ msgs, m.payload_type = T ∧ m.dest = .any .roundRobin ∧ m.source = none) :
    (∀ k, k < N →
      (runCalls st msgs).1.get? k =
        (msgs.get? k).map (fun m =>
          .returned (((hs.get? ((c + k) % N)).bind
            (fun h => h.callback none m)).map (fun r => [r])))) ∧
    (∀ k1 k2, k1 < N → k2 < N → (c + k1) % N = (c + k2) % N → k1 = k2) := by
  have hne : hs ≠ [] := by
    intro hnil
    rw [hnil] at hN
    simp at hN
    omega
  constructor
  · intro k hk
    have hrun := runCalls_rr T msgs st hs c hl hne (by rw [hlen]; exact hwrap) hok
    rw [hrun, rrOutcomes_get? hs msgs c k (by rw [hlen]; exact hk), hN]
  · intro k1 k2 hk1 hk2 heq
    have hmod : k1 ≡ k2 [MOD N] := Nat.ModEq.add_left_cancel' c heq
    calc k1 = k1 % N := (Nat.mod_eq_of_lt hk1).symm
    _ = k2 % N := hmod
    _ = k2 := Nat.mod_eq_of_lt hk2

/-- Witness for C1: three handlers answering 100, 101 and 102, cursor at 1;
the three consecutive round-robin dispatches hit indices 1, 2, 0 — every
handle exactly once, cyclically from the cursor. -/
theorem claim_C1_witness :
    (runCalls (R := Nat)
      { endpoints := [],
        type_handlers := [(7, ⟨[⟨0, fun _ _ => some 100, fun _ => false⟩,
                                ⟨1, fun _ _ => some 101, fun _ => false⟩,
                                ⟨2, fun _ _ => some 102, fun _ => false⟩], 1⟩)] }
      [Message.mkUnicast 7 0, Message.mkUnicast 7 0, Message.mkUnicast 7 0]).1.get? 0 =
      some (.returned (some [101])) ∧
    (runCalls (R := Nat)
      { endpoints := [],
        type_handlers := [(7, ⟨[⟨0, fun _ _ => some 100, fun _ => false⟩,
                                ⟨1, fun _ _ => some 101, fun _ => false⟩,
                                ⟨2, fun _ _ => some 102, fun _ => false⟩], 1⟩)] }
      [Message.mkUnicast 7 0, Message.mkUnicast 7 0, Message.mkUnicast 7 0]).1.get? 1 =
      some (.returned (some [102])) ∧
    (runCalls (R := Nat)
      { endpoints := [],
        type_handlers := [(7, ⟨[⟨0, fun _ _ => some 100, fun _ => false⟩,
                                ⟨1, fun _ _ => some 101, fun _ => false⟩,
                                ⟨2, fun _ _ => some 102, fun _ => false⟩], 1⟩)] }
      [Message.mkUnicast 7 0, Message.mkUnicast 7 0, Message.mkUnicast 7 0]).1.get? 2 =
      some (.returned (some [100])) := by
  have h := claim_C1_round_robin_fairness
    (R := Nat)
    { endpoints := [],
      type_handlers := [(7, ⟨[⟨0, fun _ _ => some 100, fun _ => false⟩,
                              ⟨1, fun _ _ => some 101, fun _ => false⟩,
                              ⟨2, fun _ _ => some 102, fun _ => false⟩], 1⟩)] }
    7 3 1
    [⟨0, fun _ _ => some 100, fun _ => false⟩,
     ⟨1, fun _ _ => some 101, fun _ => false⟩,
     ⟨2, fun _ _ => some 102, fun _ => false⟩]
    [Message.mkUnicast 7 0, Message.mkUnicast 7 0, Message.mkUnicast 7 0]
    rfl rfl (by omega) rfl (by decide)
    (by intro m hm; simp at hm; subst hm; exact ⟨rfl, rfl, rfl⟩)
  refine ⟨(h.1 0 (by omega)).trans (by rfl),
          (h.1 1 (by omega)).trans (by rfl),
          (h.1 2 (by omega)).trans (by rfl)⟩

/-- Counterexample for C1 as frozen: with the cursor at `2^64 - 1` (a state
the transition system reaches after that many round-robin dispatches, since
router.rs line 270 advances the cursor with the wrapping `usize` increment)
and N = 3 handlers answering their own indices, the three consecutive
sourceless `Any(RoundRobin)` dispatches return 0, 0, 1: handler 0 is invoked
twice and handler 2 not at all inside the N-call window, because
`(2^64 - 1) % 3 = 0` and after the wrap the cursor restarts at 0 — cyclic
registration order breaks whenever N does not divide 2^64. -/
theorem claim_C1_counterexample :
    (runCalls (R := Nat)
      { endpoints := [],
        type_handlers := [(7, ⟨[⟨0, fun _ _ => some 0, fun _ => false⟩,
                                ⟨1, fun _ _ => some 1, fun _ => false⟩,
                                ⟨2, fun _ _ => some 2, fun _ => false⟩],
                               2 ^ 64 - 1⟩)] }
      [Message.mkUnicast 7 0, Message.mkUnicast 7 0, Message.mkUnicast 7 0]).1 =
      [.returned (some [0]), .returned (some [0]), .returned (some [1])] := by
  decide

/-- Register `K` endpoints for one payload type `ty` into a fresh router, in
id order — the fold mirrors `create_endpoint` calling `add_endpoint` once per
endpoint, with the process-wide counter handing out ids `0, 1, ...`. -/
def registerAll {R : Type} (ty : Nat) (mk : Nat → Handle R) (K : Nat) : RouterState R :=
  (List.range K).foldl (fun st i => add_endpoint st ty (mk i)) emptyRouter

/-- Drop all `K` endpoints: `Endpoint::drop` calls `remove_endpoint` once per
id. -/
def removeAll {R : Type} (st : RouterState R) (K : Nat) : RouterState R :=
  (List.range K).foldl (fun st i => remove_endpoint st i) st

theorem mapInsert_of_not_mem {α : Type} (k : Nat) (v : α) (l : List (Nat × α))
    (h : ∀ e ∈ l, e.1 ≠ k) : mapInsert k v l = l ++ [(k, v)] := by
  induction l with
  | nil => rfl
  | cons e es ih =>
    have he : e.1 ≠ k := h e (List.mem_cons_self e es)
    simp only [mapInsert, if_neg he, List.cons_append]
    rw [ih (fun x hx => h x (List.mem_cons_of_mem _ hx))]

theorem registerAll_eq {R : Type} (ty : Nat) (mk : Nat → Handle R)
    (hid : ∀ i, (mk i).endpoint_id = i) :
    ∀ K, registerAll ty mk K =
      { endpoints := (List.range K).map (fun i => (i, mk i)),
        type_handlers :=
          if K = 0 then [] else [(ty, ⟨(List.range K).map mk, 0⟩)] } := by
  intro K
  induction K with
  | zero => rfl
  | succ K ih =>
    have hstep : registerAll ty mk (K + 1) =
        add_endpoint (registerAll ty mk K) ty (mk K) := by
      simp [registerAll, List.range_succ]
    rw [hstep, ih]
    have hkeys : ∀ e ∈ (List.range K).map (fun i => (i, mk i)), e.1 ≠ K := by
      intro e he
      simp only [List.mem_map, List.mem_range] at he
      obtain ⟨i, hi, rfl⟩ := he
      omega
    cases K with
    | zero =>
      simp [add_endpoint, mapInsert, thInsert, hid 0, List.range_succ]
    | succ K0 =>
      simp only [add_endpoint, RouterState.mk.injEq]
      refine ⟨?_, ?_⟩
      · rw [hid (K0 + 1), mapInsert_of_not_mem _ _ _ hkeys]
        simp [List.range_succ]
      · simp [thInsert, List.range_succ]

theorem filter_pairs_range' {R : Type} (mk : Nat → Handle R) :
    ∀ (n lo j : Nat), j < lo →
    ((List.range' lo n).map (fun i => (i, mk i))).filter (fun e => e.1 ≠ j) =
      (List.range' lo n).map (fun i => (i, mk i)) := by
  intro n
  induction n with
  | zero => intro lo j _; rfl
  | succ n ih =>
    intro lo j hj
    simp only [List.range'_succ, List.map_cons, List.filter_cons]
    rw [if_pos (by simp; omega), ih (lo + 1) j (by omega)]

theorem filter_handles_range' {R : Type} (mk : Nat → Handle R)
    (hid : ∀ i, (mk i).endpoint_id = i) :
    ∀ (n lo j : Nat), j < lo →
    ((List.range' lo n).map mk).filter (fun h => h.endpoint_id ≠ j) =
      (List.range' lo n).map mk := by
  intro n
  induction n with
  | zero => intro lo j _; rfl
  | succ n ih =>
    intro lo j hj
    simp only [List.range'_succ, List.map_cons, List.filter_cons]
    rw [if_pos (by simp [hid]; omega), ih (lo + 1) j (by omega)]

theorem removeAll_from {R : Type} (ty : Nat) (mk : Nat → Handle R) (c : Nat)
    (hid : ∀ i, (mk i).endpoint_id = i) :
    ∀ (n lo : Nat),
    (List.range' lo n).foldl (fun st i => remove_endpoint st i)
      { endpoints := (List.range' lo n).map (fun i => (i, mk i)),
        type_handlers :=
          if n = 0 then [] else [(ty, ⟨(List.range' lo n).map mk, c⟩)] } =
      emptyRouter := by
  intro n
  induction n with
  | zero => intro lo; rfl
  | succ n ih =>
    intro lo
    have h1 : ((lo :: List.range' (lo + 1) n).map (fun i => (i, mk i))).filter
        (fun e => e.1 ≠ lo) = (List.range' (lo + 1) n).map (fun i => (i, mk i)) := by
      rw [List.map_cons, List.filter_cons, if_neg (by simp)]
      exact filter_pairs_range' mk n (lo + 1) lo (by omega)
    have h2 : (mk lo :: (List.range' (lo + 1) n).map mk).filter
        (fun h => h.endpoint_id ≠ lo) = (List.range' (lo + 1) n).map mk := by
      rw [List.filter_cons, if_neg (by simp [hid lo])]
      exact filter_handles_range' mk hid n (lo + 1) lo (by omega)
    have hstate : remove_endpoint (R := R)
        { endpoints := (lo :: List.range' (lo + 1) n).map (fun i => (i, mk i)),
          type_handlers := [(ty, ⟨(lo :: List.range' (lo + 1) n).map mk, c⟩)] } lo =
        { endpoints := (List.range' (lo + 1) n).map (fun i => (i, mk i)),
          type_handlers :=
            if n = 0 then [] else [(ty, ⟨(List.range' (lo + 1) n).map mk, c⟩)] } := by
      simp only [remove_endpoint, RouterState.mk.injEq]
      refine ⟨h1, ?_⟩
      simp only [List.map_cons, List.map_nil, List.filter_nil]
      rw [h2]
      cases n with
      | zero => rfl
      | succ n0 => simp [List.range'_succ]
    rw [if_neg (Nat.succ_ne_zero n), List.range'_succ, List.foldl_cons, hstate, ih (lo + 1)]

theorem mapLookup_filter_self_ne {α : Type} (id : Nat) (l : List (Nat × α)) :
    mapLookup id (l.filter (fun e => e.1 ≠ id)) = none := by
  induction l with
  | nil => rfl
  | cons e es ih =>
    by_cases he : e.1 = id
    · simp [List.filter_cons, he]
      simpa using ih
    · simp [List.filter_cons, he, mapLookup]
      simpa using ih

/-- C7: lifecycle cleanup.  Registering `K` endpoints with distinct ids for
one payload type yields handler count and endpoint count `K`; dropping all of
them (each drop calling `remove_endpoint`) returns the router to the empty
state — both counts 0 and no type-map entry left for that type.  In general,
`remove_endpoint id` erases `id` from the identity map, purges its handle
from every type-handler list, and deletes every entry whose list became
empty. -/
theorem claim_C7_lifecycle_cleanup {R : Type} (ty : Nat) (mk : Nat → Handle R)
    (hid : ∀ i, (mk i).endpoint_id = i) (K : Nat) :
    num_handlers (registerAll ty mk K) = K ∧
    num_endpoints (registerAll ty mk K) = K ∧
    removeAll (registerAll ty mk K) K = emptyRouter ∧
    num_handlers (removeAll (registerAll ty mk K) K) = 0 ∧
    num_endpoints (removeAll (registerAll ty mk K) K) = 0 ∧
    mapLookup ty (removeAll (registerAll ty mk K) K).type_handlers = none ∧
    (∀ (st : RouterState R) (id : Nat),
      mapLookup id (remove_endpoint st id).endpoints = none ∧
      ∀ e ∈ (remove_endpoint st id).type_handlers,
        e.2.handlers ≠ [] ∧ ∀ h ∈ e.2.handlers, h.endpoint_id ≠ id) := by
  have hreg := registerAll_eq ty mk hid K
  have hrem : removeAll (registerAll ty mk K) K = emptyRouter := by
    rw [hreg, removeAll]
    rw [List.range_eq_range']
    exact removeAll_from ty mk 0 hid K 0
  refine ⟨?_, ?_, hrem, by rw [hrem]; rfl, by rw [hrem]; rfl, by rw [hrem]; rfl, ?_⟩
  · rw [hreg]
    cases K with
    | zero => rfl
    | succ K0 => simp [num_handlers]
  · rw [hreg]
    simp [num_endpoints]
  · intro st id
    refine ⟨mapLookup_filter_self_ne id st.endpoints, ?_⟩
    intro e he
    simp only [remove_endpoint, List.mem_filter, List.mem_map] at he
    obtain ⟨⟨e0, _hmem, rfl⟩, hne⟩ := he
    have hh2 : ¬ (e0.2.handlers.filter (fun h => h.endpoint_id ≠ id)).isEmpty = true := by
      simpa using hne
    constructor
    · intro hnil
      have hnil' : e0.2.handlers.filter (fun h => h.endpoint_id ≠ id) = [] := hnil
      exact hh2 (by rw [hnil']; rfl)
    · intro h hh
      have hh' : h ∈ e0.2.handlers.filter (fun h => h.endpoint_id ≠ id) := hh
      have hmf := List.mem_filter.mp hh'
      simpa using hmf.2

/-- Witness for C7 at `K = 3`: three no-op endpoints with ids 0, 1, 2 for
payload type 9 give both counts 3; removing all three empties the router and
deletes the type-map entry. -/
theorem claim_C7_witness :
    num_handlers (registerAll (R := Nat) 9
      (fun i => ⟨i, fun _ _ => some 0, fun _ => false⟩) 3) = 3 ∧
    num_endpoints (registerAll (R := Nat) 9
      (fun i => ⟨i, fun _ _ => some 0, fun _ => false⟩) 3) = 3 ∧
    num_handlers (removeAll (registerAll (R := Nat) 9
      (fun i => ⟨i, fun _ _ => some 0, fun _ => false⟩) 3) 3) = 0 ∧
    num_endpoints (removeAll (registerAll (R := Nat) 9
      (fun i => ⟨i, fun _ _ => some 0, fun _ => false⟩) 3) 3) = 0 ∧
    mapLookup 9 (removeAll (registerAll (R := Nat) 9
      (fun i => ⟨i, fun _ _ => some 0, fun _ => false⟩) 3) 3).type_handlers = none := by
  have h := claim_C7_lifecycle_cleanup (R := Nat) 9
    (fun i => ⟨i, fun _ _ => some 0, fun _ => false⟩) (fun i => rfl) 3
  exact ⟨h.1, h.2.1, h.2.2.2.1, h.2.2.2.2.1, h.2.2.2.2.2.1⟩

/-- Router states reachable through the public lifecycle: the fresh router,
endpoint registration (`create_endpoint` and `static_endpoint` both funnel
through `add_endpoint`), removal (`remove_endpoint`, also run by
`Endpoint::drop`), and message dispatch. -/
inductive Reachable {R : Type} : RouterState R → Prop where
  | empty : Reachable emptyRouter
  | add (st : RouterState R) (ty : Nat) (h : Handle R) :
      Reachable st → Reachable (add_endpoint st ty h)
  | remove (st : RouterState R) (id : Nat) :
      Reachable st → Reachable (remove_endpoint st id)
  | dispatch (st : RouterState R) (msg : Message) (rng : Nat) :
      Reachable st → Reachable (handle_message st msg rng).2

theorem thInsert_nonempty {R : Type} (ty : Nat) (h : Handle R)
    (l : List (Nat × TypeHandler R)) (hl : ∀ e ∈ l, e.2.handlers ≠ []) :
    ∀ e ∈ thInsert ty h l, e.2.handlers ≠ [] := by
  induction l with
  | nil =>
    intro e he
    simp only [thInsert, List.mem_singleton] at he
    subst he
    simp
  | cons e0 es ih =>
    intro e he
    by_cases hty : e0.1 = ty
    · simp only [thInsert, if_pos hty, List.mem_cons] at he
      rcases he with rfl | he
      · simp
      · exact hl e (List.mem_cons_of_mem _ he)
    · simp only [thInsert, if_neg hty, List.mem_cons] at he
      rcases he with rfl | he
      · exact hl e (List.mem_cons_self _ _)
      · exact ih (fun x hx => hl x (List.mem_cons_of_mem _ hx)) e he

theorem setTH_nonempty {R : Type} (k : Nat) (th : TypeHandler R)
    (l : List (Nat × TypeHandler R)) (hth : th.handlers ≠ [])
    (hl : ∀ e ∈ l, e.2.handlers ≠ []) :
    ∀ e ∈ setTH k th l, e.2.handlers ≠ [] := by
  induction l with
  | nil => intro e he; simp [setTH] at he
  | cons e0 es ih =>
    intro e he
    by_cases hk : e0.1 = k
    · simp only [setTH, if_pos hk, List.mem_cons] at he
      rcases he with rfl | he
      · exact hth
      · exact hl e (List.mem_cons_of_mem _ he)
    · simp only [setTH, if_neg hk, List.mem_cons] at he
      rcases he with rfl | he
      · exact hl e (List.mem_cons_self _ _)
      · exact ih (fun x hx => hl x (List.mem_cons_of_mem _ hx)) e he

theorem remove_endpoint_nonempty {R : Type} (st : RouterState R) (id : Nat) :
    ∀ e ∈ (remove_endpoint st id).type_handlers, e.2.handlers ≠ [] := by
  intro e he
  simp only [remove_endpoint, List.mem_filter] at he
  intro hnil
  have := he.2
  rw [hnil] at this
  simp at this

theorem dispatch_any_state {R : Type} (st : RouterState R) (msg : Message)
    (p : Policy) (rng : Nat) :
    (dispatch_any st msg p rng).2.type_handlers = st.type_handlers ∨
    ∃ th : TypeHandler R,
      mapLookup msg.payload_type st.type_handlers = some th ∧
      (dispatch_any st msg p rng).2.type_handlers =
        setTH msg.payload_type ⟨th.handlers, (th.next_index + 1) % usizeSize⟩
          st.type_handlers := by
  cases hl : mapLookup msg.payload_type st.type_handlers with
  | none => left; simp [dispatch_any, hl]
  | some th =>
    cases hs : msg.source with
    | none =>
      cases p with
      | roundRobin =>
        cases hg : th.handlers.get? (th.next_index % th.handlers.length) with
        | none =>
          left
          rw [List.get?_eq_getElem?] at hg
          simp [dispatch_any, hl, hs, hg]
        | some h =>
          right
          refine ⟨th, rfl, ?_⟩
          rw [List.get?_eq_getElem?] at hg
          simp [dispatch_any, hl, hs, hg]
      | random =>
        cases hg : th.handlers.get? (rng % th.handlers.length) with
        | none =>
          left
          rw [List.get?_eq_getElem?] at hg
          simp [dispatch_any, hl, hs, hg]
        | some h =>
          left
          rw [List.get?_eq_getElem?] at hg
          simp [dispatch_any, hl, hs, hg]
    | some s =>
      cases hf : th.handlers.find? (fun h => h.filter msg) with
      | some h => left; simp [dispatch_any, hl, hs, hf]
      | none =>
        cases p with
        | roundRobin =>
          cases hg : th.handlers.get? (th.next_index % th.handlers.length) with
          | none =>
            left
            rw [List.get?_eq_getElem?] at hg
            simp [dispatch_any, hl, hs, hf, hg]
          | some h =>
            right
            refine ⟨th, rfl, ?_⟩
            rw [List.get?_eq_getElem?] at hg
            simp [dispatch_any, hl, hs, hf, hg]
        | random =>
          cases hg : th.handlers.get? (rng % th.handlers.length) with
          | none =>
            left
            rw [List.get?_eq_getElem?] at hg
            simp [dispatch_any, hl, hs, hf, hg]
          | some h =>
            left
            rw [List.get?_eq_getElem?] at hg
            simp [dispatch_any, hl, hs, hf, hg]

theorem handle_message_state {R : Type} (st : RouterState R) (msg : Message)
    (rng : Nat) :
    (handle_message st msg rng).2.type_handlers = st.type_handlers ∨
    ∃ th : TypeHandler R,
      mapLookup msg.payload_type st.type_handlers = some th ∧
      (handle_message st msg rng).2.type_handlers =
        setTH msg.payload_type ⟨th.handlers, (th.next_index + 1) % usizeSize⟩
          st.type_handlers := by
  cases hd : msg.dest with
  | any p =>
    have := dispatch_any_state st msg p rng
    simpa [handle_message, hd] using this
  | broadcast p =>
    cases hl : mapLookup msg.payload_type st.type_handlers with
    | none => left; simp [handle_message, hd, dispatch_broadcast, hl]
    | some th =>
      by_cases h1 : th.handlers.length = 1
      · have := dispatch_any_state st msg p rng
        simpa [handle_message, hd, dispatch_broadcast, hl, h1] using this
      · left
        simp [handle_message, hd, dispatch_broadcast, hl, h1]
  | endpoint addr =>
    left
    cases hl : mapLookup addr st.endpoints with
    | none => simp [handle_message, hd, hl]
    | some h => simp [handle_message, hd, hl]

/-- C10: non-empty type-handler invariant.  In every router state reachable
through registration, removal, drop-deregistration and dispatch, each entry
of the type map holds a non-empty handler list; consequently the
policy-selection code in `dispatch_any` — `next_index % handlers.len()` for
`RoundRobin` and the `0..handlers.len()` sample for `Random` — never sees an
empty list, so no modulo-by-zero, out-of-bounds index, or empty sampling
range is reachable during dispatch (`dispatch_any` never panics). -/
theorem claim_C10_nonempty_invariant {R : Type} (st : RouterState R)
    (hr : Reachable st) :
    (∀ e ∈ st.type_handlers, e.2.handlers ≠ []) ∧
    (∀ (msg : Message) (p : Policy) (rng : Nat),
      (dispatch_any st msg p rng).1 ≠ .panicked) := by
  have hinv : ∀ e ∈ st.type_handlers, e.2.handlers ≠ [] := by
    induction hr with
    | empty => intro e he; simp [emptyRouter] at he
    | add st0 ty h _ ih => exact thInsert_nonempty ty h st0.type_handlers ih
    | remove st0 id _ ih => exact remove_endpoint_nonempty st0 id
    | dispatch st0 msg rng _ ih =>
      rcases handle_message_state st0 msg rng with heq | ⟨th, hl, heq⟩
      · rw [heq]; exact ih
      · rw [heq]
        exact setTH_nonempty _ _ _ (ih _ (mapLookup_mem _ _ _ hl)) ih
  refine ⟨hinv, ?_⟩
  intro msg p rng
  cases hl : mapLookup msg.payload_type st.type_handlers with
  | none => simp [dispatch_any, hl]
  | some th =>
    have hne : th.handlers ≠ [] := hinv _ (mapLookup_mem _ _ _ hl)
    obtain ⟨x, hx⟩ := get?_mod_isSome th.handlers th.next_index hne
    obtain ⟨y, hy⟩ := get?_mod_isSome th.handlers rng hne
    rw [List.get?_eq_getElem?] at hx hy
    cases hs : msg.source with
    | none => cases p <;> simp [dispatch_any, hl, hs, hx, hy]
    | some s =>
      cases hf : th.handlers.find? (fun h => h.filter msg) with
      | none => cases p <;> simp [dispatch_any, hl, hs, hf, hx, hy]
      | some h => simp [dispatch_any, hl, hs, hf]

/-- Witness for C10: the state reached by one registration is reachable, and
a round-robin `Any` dispatch of the registered type on it does not panic. -/
theorem claim_C10_witness :
    (dispatch_any
      (add_endpoint (R := Nat) emptyRouter 4 ⟨5, fun _ _ => some 1, fun _ => false⟩)
      (Message.mkUnicast 4 0) .roundRobin 0).1 ≠ .panicked := by
  exact (claim_C10_nonempty_invariant
    (add_endpoint (R := Nat) emptyRouter 4 ⟨5, fun _ _ => some 1, fun _ => false⟩)
    (Reachable.add emptyRouter 4 ⟨5, fun _ _ => some 1, fun _ => false⟩
      Reachable.empty)).2 (Message.mkUnicast 4 0) .roundRobin 0

end Salish
